import Mathlib

/-!
Verification of the `to_alloc_or_not_to_alloc` toolkit: a shallow embedding of
`src/count_mem_calls.py` (benchmark driver) and `plotter/openfoam.py` (report
plotter), with theorems settling the specification claims.

Strings are modelled as Lean `String`/`List Char`; Python `str.split(sep)`,
`str.strip()`, `int()`/`float()` on plain decimal literals, dict update and
truthiness are embedded as executable functions below.  Times and CSV numbers
are modelled as `ℚ`.
-/

/-! ## Python string primitives -/

/-- Leftmost occurrence split: returns `some (before, after)` when `sep` occurs
in `s` (`before ++ sep ++ after = s`), `none` otherwise.  Helper for Python
`str.split(sep)`. -/
def splitFirst (sep : List Char) : List Char → Option (List Char × List Char)
  | [] => none
  | c :: rest =>
    if sep.isPrefixOf (c :: rest) then some ([], List.drop (sep.length - 1) rest)
    else
      match splitFirst sep rest with
      | none => none
      | some (pre, post) => some (c :: pre, post)

/-- Fuel-bounded iteration of `splitFirst`; the fuel `s.length + 1` used by
`pysplit` always suffices because each split consumes at least one character. -/
def pysplitN (sep : List Char) : Nat → List Char → List (List Char)
  | 0, s => [s]
  | n + 1, s =>
    match splitFirst sep s with
    | none => [s]
    | some (pre, post) => pre :: pysplitN sep n post

/-- Python `s.split(sep)` for a non-empty separator `sep`. -/
def pysplit (sep s : List Char) : List (List Char) :=
  pysplitN sep (s.length + 1) s

/-- Python `s.strip()`: drop leading and trailing whitespace. -/
def pystrip (s : List Char) : List Char :=
  ((s.dropWhile Char.isWhitespace).reverse.dropWhile Char.isWhitespace).reverse

/-- First element of a split result (`xs[0]`; a Python `split` result is never
empty, so the default is unreachable). -/
def headD0 (l : List (List Char)) : List Char := l.headD []

/-- Python whitespace-run splitting `s.split()` (no argument): fields are
maximal runs of non-whitespace, empty fields never occur. -/
def splitWsAux : List Char → List Char → List (List Char)
  | [], cur => if cur.isEmpty then [] else [cur.reverse]
  | c :: rest, cur =>
    if c.isWhitespace then
      if cur.isEmpty then splitWsAux rest [] else cur.reverse :: splitWsAux rest []
    else splitWsAux rest (c :: cur)

/-- Python `s.split()` with no argument (whitespace runs, no empty fields). -/
def splitWs (s : List Char) : List (List Char) := splitWsAux s []

/-- Python string comparison: lexicographic on code points. -/
def charListLt : List Char → List Char → Bool
  | [], [] => false
  | [], _ :: _ => true
  | _ :: _, [] => false
  | a :: as, b :: bs =>
    if a.toNat < b.toNat then true
    else if b.toNat < a.toNat then false
    else charListLt as bs

/-- Python `<` on strings (code-point lexicographic order). -/
def strLt (a b : String) : Bool := charListLt a.data b.data

/-- Python truthiness of an optional string: `None` and `""` are falsy. -/
def pyTruthy : Option String → Bool
  | none => false
  | some s => s ≠ ""

/-- Python `a or b` on optional strings. -/
def pyOr (a b : Option String) : Option String := if pyTruthy a then a else b

/-- `os.path.join(dir, file)` for POSIX paths as used by the driver. -/
def pyJoin (d f : String) : String :=
  if f.startsWith "/" then f
  else if d = "" then f
  else if d.endsWith "/" then d ++ f
  else d ++ "/" ++ f

/-- Python decimal-digit parsing: value of a digit list (most significant
first). -/
def natOfDigits (l : List Char) : Nat :=
  l.foldl (fun acc c => 10 * acc + (c.toNat - 48)) 0

/-- Non-empty all-digit check. -/
def isDigits (l : List Char) : Bool := !l.isEmpty && l.all Char.isDigit

/-- Python `int(s)` on a plain (optionally signed) decimal integer literal;
`none` models the `ValueError` raised on anything else. -/
def pyInt : List Char → Option Int :=
  fun l =>
    match pystrip l with
    | '-' :: rest => if isDigits rest then some (-(natOfDigits rest : Int)) else none
    | '+' :: rest => if isDigits rest then some (natOfDigits rest : Int) else none
    | t => if isDigits t then some (natOfDigits t : Int) else none

/-- Value of an unsigned decimal literal split as integer and fractional digit
parts ("ip.fp"). -/
def decOfParts (ip fp : List Char) : ℚ :=
  (natOfDigits ip : ℚ) + (natOfDigits fp : ℚ) / ((10 : ℚ) ^ fp.length)

/-- Unsigned part of Python `float(s)` on a plain decimal literal: `digits`,
`digits.digits`, `.digits` or `digits.`. -/
def pyFloatCore (t : List Char) : Option ℚ :=
  match pysplit ['.'] t with
  | [ip] => if isDigits ip then some (natOfDigits ip : ℚ) else none
  | [ip, fp] =>
    if (isDigits ip || ip.isEmpty) && (isDigits fp || fp.isEmpty) && !(ip.isEmpty && fp.isEmpty)
    then some (decOfParts ip fp) else none
  | _ => none

/-- Python `float(s)` on a plain (optionally signed) decimal literal; `none`
models the `ValueError` on anything else.  The timing tool only emits such
literals. -/
def pyFloat (l : List Char) : Option ℚ :=
  match pystrip l with
  | '-' :: rest => (pyFloatCore rest).map Neg.neg
  | '+' :: rest => pyFloatCore rest
  | t => pyFloatCore t

/-- Python dict update `d[k] = v` on an association list (insertion order
preserved, existing key overwritten). -/
def dictSet : List (String × String) → String → String → List (String × String)
  | [], k, v => [(k, v)]
  | (k0, v0) :: rest, k, v =>
    if k0 = k then (k0, v) :: rest else (k0, v0) :: dictSet rest k v

/-- Python dict lookup `d.get(k)` on an association list. -/
def dictGet : List (String × String) → String → Option String
  | [], _ => none
  | (k0, v0) :: rest, k => if k0 = k then some v0 else dictGet rest k

/-! ## Benchmark driver (`src/count_mem_calls.py`) -/

/-- A spawned child process: its argv and the environment it receives. -/
structure Spawn where
  argv : List String
  env : List (String × String)
deriving DecidableEq

/-- The configuration dict returned by `handle_time` / `handle_strace`. -/
inductive Config where
  | time (binary : String) (iters : Int) (ldPreload : String) (allocator : String) (soPath : String)
  | strace (binary : String)
deriving DecidableEq

/-- `validate_binary(args)`: `binary = args.file or args.command`; missing both
is a usage error; a supplied (truthy) `--file` must be an existing regular file
(`os.path.isfile`) with the execute bit (`os.access(..., X_OK)`), modelled by
the oracles `isfile` and `isxok`. -/
def validate_binary (file command : Option String) (isfile isxok : String → Bool) :
    Except String String :=
  let binary := pyOr file command
  if pyTruthy binary = false then
    Except.error "you must provide either --file or --command"
  else
    let b := binary.getD ""
    if pyTruthy file then
      if isfile b && isxok b then Except.ok b
      else Except.error (b ++ " is not an executable file")
    else Except.ok b

/-- `handle_time(args)`: joins the preload directory and library name, exits
fatally (`sys.exit`) when the result is not a regular file, then validates the
binary while building the configuration dict. -/
def handle_time (file command : Option String) (iters : Int) (ldpreload allocator : String)
    (isfile isxok : String → Bool) : Except String Config :=
  let soPath := pyJoin ldpreload allocator
  if isfile soPath then
    (validate_binary file command isfile isxok).map
      (fun b => Config.time b iters ldpreload allocator soPath)
  else Except.error "invalid ldpreload path or allocator shared object"

/-- `handle_strace(args)`. -/
def handle_strace (file command : Option String) (isfile isxok : String → Bool) :
    Except String Config :=
  (validate_binary file command isfile isxok).map Config.strace

/-- The raw command-line options of the driver before argparse validation:
`--file`/`--command` (plain `str` options), the required subcommand name, and
the `time` subcommand options (`--iters` default 25, `--ldpreload` required,
`--allocator-replacement` required with choices restricted to
`libmimalloc.so`). -/
structure RawArgs where
  file : Option String
  command : Option String
  mode : String
  iters : Option Int
  ldpreload : Option String
  allocator_replacement : Option String
deriving DecidableEq

/-- argparse validation of the `time` subcommand options: `--ldpreload` and
`--allocator-replacement` are required, and the latter only accepts the single
choice `"libmimalloc.so"`.  Returns `(iters, ldpreload, allocator)`. -/
def argparseTime (a : RawArgs) : Except String (Int × String × String) :=
  match a.ldpreload with
  | none => Except.error "the following arguments are required: --ldpreload"
  | some lp =>
    match a.allocator_replacement with
    | none => Except.error "the following arguments are required: --allocator-replacement"
    | some ar =>
      if ar = "libmimalloc.so" then Except.ok (a.iters.getD 25, lp, ar)
      else Except.error ("argument --allocator-replacement: invalid choice: " ++ ar)

/-- `setup_argparse()`: parses/validates arguments and dispatches to the
handler of the selected subcommand; every error is fatal and happens before
any child process runs. -/
def setup_argparse (a : RawArgs) (isfile isxok : String → Bool) : Except String Config :=
  match a.mode with
  | "time" =>
    match argparseTime a with
    | Except.error e => Except.error e
    | Except.ok (iters, lp, ar) => handle_time a.file a.command iters lp ar isfile isxok
  | "strace" => handle_strace a.file a.command isfile isxok
  | _ => Except.error "invalid subcommand"

/-- Wrapped argv in `time` mode:
`["time", "-f", fmt] ++ config["binary"].split(" ")`. -/
def timeCmdArgv (binary : String) : List String :=
  ["time", "-f", "Real time: %E, User time: %U, System time: %S"] ++
    (pysplit [' '] binary.data).map (fun l => String.mk l)

/-- Wrapped argv in `strace` mode:
`["strace", "-f", "-o", log] ++ config["binary"].split(" ")`. -/
def straceCmdArgv (binary logName : String) : List String :=
  ["strace", "-f", "-o", logName] ++ (pysplit [' '] binary.data).map (fun l => String.mk l)

/-- One benchmarking loop `for _ in range(n)`: spawns the same process
repeatedly; a non-zero child exit (`res i = false` for the overall `i`-th
spawn) aborts with `exit(-1)` after that spawn.  Returns the spawned processes
and whether the loop completed. -/
def runLoop (sp : Spawn) (res : Nat → Bool) : Nat → Nat → List Spawn × Bool
  | 0, _ => ([], true)
  | n + 1, i =>
    if res i then
      let r := runLoop sp res n (i + 1)
      (sp :: r.1, r.2)
    else ([sp], false)

/-- The environment-variable name used for preload injection. -/
def ldPreloadKey : String := "LD_PRELOAD"

/-- The `time`-mode module code: first `iters` runs with the inherited parent
environment (no `env=` argument to `subprocess.run`), then, on success,
`env = os.environ.copy(); env["LD_PRELOAD"] = so_path` and `iters` more runs
with that environment. -/
def timeSpawns (argv : List String) (parentEnv : List (String × String)) (soPath : String)
    (iters : Nat) (res : Nat → Bool) : List Spawn :=
  let base := runLoop ⟨argv, parentEnv⟩ res iters 0
  if base.2 then
    base.1 ++ (runLoop ⟨argv, dictSet parentEnv ldPreloadKey soPath⟩ res iters iters).1
  else base.1

/-- All child processes spawned by the driver for a validated configuration. -/
def driverSpawns (cfg : Config) (parentEnv : List (String × String)) (res : Nat → Bool)
    (logName : String) : List Spawn :=
  match cfg with
  | Config.strace b => [⟨straceCmdArgv b logName, parentEnv⟩]
  | Config.time b iters _ _ soPath => timeSpawns (timeCmdArgv b) parentEnv soPath iters.toNat res

/-- The driver module: configuration is built (all validation errors fatal)
before any child process is spawned. -/
def driverRun (a : RawArgs) (isfile isxok : String → Bool) (parentEnv : List (String × String))
    (res : Nat → Bool) (logName : String) : Except String Config × List Spawn :=
  match setup_argparse a isfile isxok with
  | Except.error e => (Except.error e, [])
  | Except.ok cfg => (Except.ok cfg, driverSpawns cfg parentEnv res logName)

/-! ## Time-report parsing (`parse_time`) and strace-log counting -/

/-- Field extraction in `parse_time`:
`time_taken_str.split(delim)[1].split(",")[0].strip()`; `none` models the
`IndexError` when the delimiter is absent. -/
def extractField (delim s : List Char) : Option (List Char) :=
  match pysplit delim s with
  | _ :: second :: _ => some (pystrip (headD0 (pysplit [','] second)))
  | _ => none

/-- `parse_lengthy_time(t)`: `m, s = t.split(":")` then
`int(m) * 60 + float(s)`; `none` models the exceptions when the split does not
have exactly two parts or a numeric conversion fails. -/
def parse_lengthy_time (t : List Char) : Option ℚ :=
  match pysplit [':'] t with
  | [m, s] =>
    match pyInt m, pyFloat s with
    | some mi, some sf => some ((mi : ℚ) * 60 + sf)
    | _, _ => none
  | _ => none

/-- One field of `parse_time`: the `if ":" in t` branch selects between
`parse_lengthy_time` and plain `float`. -/
def parseField (t : List Char) : Option ℚ :=
  if t.contains ':' then parse_lengthy_time t else pyFloat t

/-- `parse_time(time_taken_str)`: extracts the three delimited fields of the
timing report and parses each one; returns `(real, user, system)`. -/
def parse_time (s : List Char) : Option (ℚ × ℚ × ℚ) :=
  match extractField "Real time: ".data s, extractField "User time: ".data s,
      extractField "System time: ".data s with
  | some r, some u, some st =>
    match parseField r, parseField u, parseField st with
    | some rv, some uv, some sv => some (rv, uv, sv)
    | _, _, _ => none
  | _, _, _ => none

/-- One line of the strace-mode parsing loop:
`token = line.split(" ")[1].split("(")[0]`, appended when `token[0].isalnum()`;
`none` models both `IndexError` skips and the non-alphanumeric filter. -/
def straceToken (line : List Char) : Option (List Char) :=
  match (pysplit [' '] line)[1]? with
  | none => none
  | some f =>
    match headD0 (pysplit ['('] f) with
    | [] => none
    | c :: cs => if c.isAlphanum then some (c :: cs) else none

/-- `syscall_list`: the tokens collected over all lines of the trace log. -/
def syscall_list (lines : List (List Char)) : List (List Char) :=
  lines.filterMap straceToken

/-- The count of one syscall name in the `Counter(syscall_list)` histogram
(0 means the name is absent from the mapping). -/
def straceCount (lines : List (List Char)) (t : List Char) : Nat :=
  (syscall_list lines).count t

/-- Follows the words of claim C9 (not the code): the second
*whitespace*-separated field of the line, truncated at the first parenthesis,
kept when its first character is alphanumeric. -/
def straceTokenByWsField (line : List Char) : Option (List Char) :=
  match (splitWs line)[1]? with
  | none => none
  | some f =>
    match headD0 (pysplit ['('] f) with
    | [] => none
    | c :: cs => if c.isAlphanum then some (c :: cs) else none

/-! ## Report plotter (`plotter/openfoam.py`) -/

/-- One CSV row of the benchmark results. -/
structure Row where
  command : String
  allocator : String
  total_mean : ℚ
  total_min : ℚ
  total_max : ℚ
  user_mean : ℚ
  user_min : ℚ
  user_max : ℚ
  system_mean : ℚ
  system_min : ℚ
  system_max : ℚ
deriving DecidableEq

/-- A row whose nine numeric columns all hold the same value (convenient for
concrete instances). -/
def mkRow (c a : String) (v : ℚ) : Row := ⟨c, a, v, v, v, v, v, v, v, v, v⟩

/-- The numeric values of a row (`row.values` restricted to the numeric
columns; the two string columns never equal a numeric sentinel). -/
def rowVals (r : Row) : List ℚ :=
  [r.total_mean, r.total_min, r.total_max, r.user_mean, r.user_min, r.user_max,
   r.system_mean, r.system_min, r.system_max]

/-- `(-60 in row.values) or (-1 in row.values)`. -/
def hasSentinel (r : Row) : Bool :=
  (rowVals r).any (fun v => v == -60 || v == -1)

/-- `load_and_clean_data`: collects the `command` of every row without a
sentinel into `commands`, then keeps the rows whose command is in that list
(`df[df["command"].isin(commands)]`). -/
def load_and_clean_data (df : List Row) : List Row :=
  let commands := (df.filter (fun r => !hasSentinel r)).map (fun r => r.command)
  df.filter (fun r => commands.contains r.command)

/-- Sorted insertion without duplicates (ascending code-point order). -/
def insertUnique (x : String) : List String → List String
  | [] => [x]
  | y :: ys =>
    if x = y then y :: ys
    else if strLt x y then x :: y :: ys
    else y :: insertUnique x ys

/-- Sorted unique values of a column, as produced for a pandas pivot/groupby
index (group keys are sorted). -/
def uniqueSorted (l : List String) : List String := l.foldr insertUnique []

/-- First-encounter-order unique values of a column
(`df[col].unique()`). -/
def dedupFirst : List String → List String
  | [] => []
  | x :: xs => x :: (dedupFirst xs).filter (fun y => y ≠ x)

/-- The pivot-table row index: sorted unique commands. -/
def pivotIndex (df : List Row) : List String := uniqueSorted (df.map (fun r => r.command))

/-- The pivot-table columns: sorted unique allocators. -/
def pivotCols (df : List Row) : List String := uniqueSorted (df.map (fun r => r.allocator))

/-- One cell of `df.pivot_table(values="total_mean", index="command",
columns="allocator", aggfunc="mean")`: the mean of `total_mean` over the
matching rows, `none` modelling the NaN of an absent (command, allocator)
combination. -/
def pivotCell (df : List Row) (c a : String) : Option ℚ :=
  let vs := (df.filter (fun r => r.command == c && r.allocator == a)).map (fun r => r.total_mean)
  if vs.isEmpty then none else some (vs.sum / (vs.length : ℚ))

/-- One cell of `pivot_data.div(pivot_data[baseline], axis=0)`: the cell value
divided by the same row's baseline-column value (`none` propagates NaN). -/
def pivotRelativeCell (df : List Row) (baseline c a : String) : Option ℚ :=
  match pivotCell df c a, pivotCell df c baseline with
  | some x, some b => some (x / b)
  | _, _ => none

/-- Mean of `total_mean` over all rows of one command
(`df.groupby("command")["total_mean"].mean()` at key `c`). -/
def meanTotal (df : List Row) (c : String) : ℚ :=
  let vs := (df.filter (fun r => r.command == c)).map (fun r => r.total_mean)
  vs.sum / (vs.length : ℚ)

/-- The groupby-mean series: keys sorted ascending (pandas groupby sorts its
keys), each paired with its group mean. -/
def groupMeanSeries (df : List Row) : List (String × ℚ) :=
  (pivotIndex df).map (fun c => (c, meanTotal df c))

/-- Stable descending insertion by value: the new element passes over entries
of strictly smaller value only, so earlier entries win ties (pandas
`nlargest(..., keep="first")`). -/
def insertValDesc (x : String × ℚ) : List (String × ℚ) → List (String × ℚ)
  | [] => [x]
  | y :: ys => if y.2 < x.2 then x :: y :: ys else y :: insertValDesc x ys

/-- Stable descending sort by value (earlier elements of the input win
ties). -/
def sortValDesc (l : List (String × ℚ)) : List (String × ℚ) :=
  l.foldl (fun acc x => insertValDesc x acc) []

/-- The ordering maintained by the stable descending sort on a key-sorted
series: strictly larger value first, ties in ascending key order. -/
def topRel (x y : String × ℚ) : Prop :=
  y.2 < x.2 ∨ (x.2 = y.2 ∧ strLt x.1 y.1 = true)

/-- `df.groupby("command")["total_mean"].mean().nlargest(n).index`: the
commands of the `n` largest group means, ties resolved in favour of the
earlier position in the key-sorted series. -/
def top_commands (df : List Row) (n : Nat) : List String :=
  ((sortValDesc (groupMeanSeries df)).take n).map (fun p => p.1)

/-- Follows the words of claim C7 (not the code): the same selection but with
ties broken by first-encounter order of the commands in the dataset. -/
def top_commands_encounterTies (df : List Row) (n : Nat) : List String :=
  ((sortValDesc ((dedupFirst (df.map (fun r => r.command))).map
      (fun c => (c, meanTotal df c)))).take n).map (fun p => p.1)

/-- The baseline presence check of `plot_allocator_overview_heatmap`:
`if baseline not in pivot_data.columns: raise ValueError(...)`; an unset
(`None`) baseline is never a column, so it always raises. -/
def heatmapBaselineCheck (df : List Row) (baseline : Option String) : Except String Unit :=
  match baseline with
  | some b =>
    if (pivotCols df).contains b then Except.ok ()
    else Except.error ("Baseline allocator " ++ b ++ " not found in data")
  | none => Except.error "Baseline allocator None not found in data"

/-- `command.replace("/", "_").replace(" ", "_")`. -/
def sanitizeCmd (s : String) : String :=
  String.map (fun c => if c = '/' ∨ c = ' ' then '_' else c) s

/-- Outcome of one run of the plotter entry point: whether the invalid-baseline
warning fired, the chart artifacts saved (in order), and the uncaught
exception, if any, that aborted the run. -/
structure MainOutcome where
  warnedBaseline : Bool
  artifacts : List String
  errored : Option String
deriving DecidableEq

/-- The plotter `main()`: loads and filters the CSV, returns early on an empty
result, downgrades an absent user-supplied baseline to `None` with a warning,
then produces the summary chart, the two heatmaps, the top-N chart and the
per-command charts in order; an exception raised by a plotting call aborts the
run at that point. -/
def mainRun (rows : List Row) (baselineArg : Option String) (skipIndividual : Bool) :
    MainOutcome :=
  let df := load_and_clean_data rows
  if df.isEmpty then ⟨false, [], none⟩
  else
    let avail := df.map (fun r => r.allocator)
    let warned :=
      match baselineArg with
      | some b => !avail.contains b
      | none => false
    let baseline :=
      match baselineArg with
      | some b => if avail.contains b then some b else none
      | none => none
    let arts := ["allocator_summary.png"]
    match heatmapBaselineCheck df baseline with
    | Except.error e => ⟨warned, arts, some e⟩
    | Except.ok _ =>
      let arts := arts ++ ["allocator_heatmap.png"]
      match heatmapBaselineCheck df baseline with
      | Except.error e => ⟨warned, arts, some e⟩
      | Except.ok _ =>
        let arts := arts ++ ["allocator_heatmap_new.png", "top_commands_comparison.png"]
        let arts :=
          if skipIndividual then arts
          else arts ++ (dedupFirst (df.map (fun r => r.command))).map
            (fun c => sanitizeCmd c ++ ".png")
        ⟨warned, arts, none⟩

/-! ## Concrete instances used by the claim theorems -/

/-- CSV of the spec's end-to-end scenario: command `A` valid for both
allocators, command `B` valid for `gnu` but failed (`-1`) for `mimalloc`. -/
def c1rows : List Row :=
  [mkRow "A" "gnu" 10, mkRow "A" "mimalloc" 5, mkRow "B" "gnu" 3, mkRow "B" "mimalloc" (-1)]

/-- The failed sibling row of `c1rows`. -/
def c1sentinelRow : Row := mkRow "B" "mimalloc" (-1)

/-- A fully valid two-allocator dataset. -/
def c2rows : List Row := [mkRow "A" "gnu" 10, mkRow "A" "mimalloc" 5]

/-- A parent environment that already carries a preload variable. -/
def c4parentEnv : List (String × String) := [("LD_PRELOAD", "/old/alloc.so")]

/-- Dataset with a tie on mean total time: command `"b"` is encountered first,
but `"a"` precedes it in the sorted groupby index. -/
def c7rows : List Row := [mkRow "b" "gnu" 5, mkRow "a" "gnu" 5, mkRow "c" "gnu" 3]

/-- The timing report of claim C8. -/
def c8report : List Char := "Real time: 1:05.30, User time: 0.02, System time: 0.01".data

/-- Trace line with a syscall: `1234 open("f", ...) = 3`. -/
def c9lineOpen : List Char := "1234 open(\"f\", ...) = 3".data

/-- Trace line of a signal: `1234 --- SIGCHLD ---`. -/
def c9lineSig : List Char := "1234 --- SIGCHLD ---".data

/-- Trace line with two consecutive spaces before the syscall name. -/
def c9lineGap : List Char := "1234  open(x) = 3".data

/-- Arguments selecting `time` mode with allocator choice `gnu`. -/
def c3gnuArgs : RawArgs :=
  ⟨some "/bin/ls", none, "time", none, some "/usr/lib", some "gnu"⟩

/-- Arguments selecting `time` mode without an allocator choice. -/
def c3noAllocArgs : RawArgs :=
  ⟨some "/bin/ls", none, "time", none, some "/usr/lib", none⟩

/-- Arguments selecting `time` mode with the accepted allocator choice. -/
def c3okArgs : RawArgs :=
  ⟨some "/bin/ls", none, "time", none, some "/usr/lib", some "libmimalloc.so"⟩

/-! ## Helper lemmas -/

theorem runLoop_all_ok (sp : Spawn) (res : Nat → Bool) (n : Nat) :
    ∀ i, (∀ j, res j = true) → runLoop sp res n i = (List.replicate n sp, true) := by
  induction n with
  | zero => intro i _; rfl
  | succ n ih =>
    intro i h
    simp [runLoop, h i, ih (i + 1) h, List.replicate_succ]

theorem dictGet_dictSet (env : List (String × String)) (k v : String) :
    dictGet (dictSet env k v) k = some v := by
  induction env with
  | nil => simp [dictSet, dictGet]
  | cons p rest ih =>
    obtain ⟨k0, v0⟩ := p
    by_cases h : k0 = k
    · simp [dictSet, dictGet, h]
    · simp [dictSet, dictGet, h, ih]

/-! ## Claim theorems -/

/-- Claim C1 (code bug): the spec says a command group containing any sentinel
row must be entirely absent from the filtered dataset, but
`load_and_clean_data` keeps every row of any command that has at least one
clean row: on the spec's own end-to-end scenario the failed row
`(B, mimalloc, -1)` and its siblings all survive filtering. -/
theorem C1_sentinel_sibling_rows_retained :
    load_and_clean_data c1rows = c1rows
    ∧ c1sentinelRow ∈ load_and_clean_data c1rows
    ∧ hasSentinel c1sentinelRow = true := by decide

/-- Claim C2 (code bug): with a baseline absent from the data the entry point
does warn and downgrade the baseline to `None`, but the subsequent heatmap
call raises (`None` is never a pivot column), so the run aborts right after
the summary chart instead of producing the remaining artifacts. -/
theorem C2_invalid_baseline_downgrade_then_abort :
    mainRun c2rows (some "tcmalloc") false =
      ⟨true, ["allocator_summary.png"], some "Baseline allocator None not found in data"⟩ := by
  decide

/-- Claim C3 (counterexample): `"gnu"` is not a permissible value of
`--allocator-replacement` (its only choice is `"libmimalloc.so"`), and the
option is required, so there is no default baseline allocator selection in
`time` mode; rejection happens with nothing spawned. -/
theorem C3_gnu_not_a_choice :
    argparseTime c3gnuArgs =
      Except.error "argument --allocator-replacement: invalid choice: gnu"
    ∧ argparseTime c3noAllocArgs =
      Except.error "the following arguments are required: --allocator-replacement"
    ∧ (driverRun c3gnuArgs (fun _ => true) (fun _ => true) [] (fun _ => true) "log").2 = [] :=
  ⟨rfl, rfl, rfl⟩

/-- Claim C3 (amended): in `time` mode the only allocator the parser accepts is
`libmimalloc.so`; for it, if the joined shared-object path is not a regular
file, the driver terminates with the fatal configuration error and spawns no
child process. -/
theorem C3_missing_so_fatal_before_spawn (a : RawArgs) (isfile isxok : String → Bool)
    (parentEnv : List (String × String)) (res : Nat → Bool) (logName : String) (lp : String)
    (hmode : a.mode = "time") (hlp : a.ldpreload = some lp) :
    (∀ cfg, (driverRun a isfile isxok parentEnv res logName).1 = Except.ok cfg →
        a.allocator_replacement = some "libmimalloc.so")
    ∧ (a.allocator_replacement = some "libmimalloc.so" →
        isfile (pyJoin lp "libmimalloc.so") = false →
        driverRun a isfile isxok parentEnv res logName =
          (Except.error "invalid ldpreload path or allocator shared object", [])) := by
  constructor
  · intro cfg hcfg
    cases har : a.allocator_replacement with
    | none =>
      simp [driverRun, setup_argparse, hmode, argparseTime, hlp, har] at hcfg
    | some ar =>
      by_cases he : ar = "libmimalloc.so"
      · rw [he]
      · simp [driverRun, setup_argparse, hmode, argparseTime, hlp, har, he] at hcfg
  · intro har hso
    simp [driverRun, setup_argparse, hmode, argparseTime, hlp, har, handle_time, hso]

/-- Claim C3 (witness): concrete arguments with the accepted allocator and a
missing shared object produce the fatal error and an empty spawn list. -/
theorem C3_missing_so_fatal_before_spawn_witness :
    driverRun c3okArgs (fun _ => false) (fun _ => false) [] (fun _ => true) "log" =
      (Except.error "invalid ldpreload path or allocator shared object", []) :=
  (C3_missing_so_fatal_before_spawn c3okArgs (fun _ => false) (fun _ => false) [] (fun _ => true)
    "log" "/usr/lib" rfl rfl).2 rfl rfl

/-- Claim C4 (counterexample): the baseline batch inherits the parent
environment unchanged, so when the driver itself is started with `LD_PRELOAD`
set, the very first (baseline) spawn's environment contains the preload
variable, contradicting "its environment never contains the preload
variable". -/
theorem C4_baseline_env_keeps_parent_preload :
    (timeSpawns ["app"] c4parentEnv "/new/libmimalloc.so" 1 (fun _ => true)).head? =
      some ⟨["app"], c4parentEnv⟩
    ∧ dictGet c4parentEnv ldPreloadKey = some "/old/alloc.so" := by decide

/-- Claim C4 (amended): when every child run succeeds, a `time`-mode invocation
spawns exactly `iters` baseline runs with the inherited parent environment
unchanged (so the preload variable is present only if the parent environment
already carried it), followed by exactly `iters` runs whose environment is the
parent environment with the preload variable set to the resolved shared-object
path; the baseline batch comes first. -/
theorem C4_time_mode_two_batches (argv : List String) (parentEnv : List (String × String))
    (soPath : String) (iters : Nat) (res : Nat → Bool) (h : ∀ j, res j = true) :
    timeSpawns argv parentEnv soPath iters res =
      List.replicate iters ⟨argv, parentEnv⟩ ++
        List.replicate iters ⟨argv, dictSet parentEnv ldPreloadKey soPath⟩
    ∧ dictGet (dictSet parentEnv ldPreloadKey soPath) ldPreloadKey = some soPath := by
  refine ⟨?_, dictGet_dictSet parentEnv ldPreloadKey soPath⟩
  simp [timeSpawns, runLoop_all_ok _ _ _ _ h]

/-- Claim C4 (witness): the two batches at concrete parameters. -/
theorem C4_time_mode_two_batches_witness :
    timeSpawns ["app"] [] "/p/libmimalloc.so" 2 (fun _ => true) =
      List.replicate 2 ⟨["app"], []⟩ ++
        List.replicate 2 ⟨["app"], dictSet [] ldPreloadKey "/p/libmimalloc.so"⟩
    ∧ dictGet (dictSet [] ldPreloadKey "/p/libmimalloc.so") ldPreloadKey =
        some "/p/libmimalloc.so" :=
  C4_time_mode_two_batches ["app"] [] "/p/libmimalloc.so" 2 (fun _ => true) (fun _ => rfl)

/-- Claim C5 (counterexample): supplying both `--file` and `--command` is not
rejected: `binary = args.file or args.command` silently prefers the file, so
with an executable `/bin/ls` and an inline command both present, validation
succeeds instead of raising the claimed usage error. -/
theorem C5_both_supplied_not_rejected :
    validate_binary (some "/bin/ls") (some "echo hi") (fun s => s == "/bin/ls")
      (fun s => s == "/bin/ls") = Except.ok "/bin/ls" := rfl

/-- Claim C5 (amended): supplying neither a (truthy) file nor a (truthy)
command is rejected with the usage error, and a supplied file path that is not
an existing executable regular file is rejected with a usage error — both
before any child process is spawned; but when both options are supplied the
file silently takes precedence and no error is raised. -/
theorem C5_validate_binary_behaviour (file command : Option String)
    (isfile isxok : String → Bool) (a : RawArgs) (parentEnv : List (String × String))
    (res : Nat → Bool) (logName : String) :
    (pyTruthy file = false → pyTruthy command = false →
      validate_binary file command isfile isxok =
        Except.error "you must provide either --file or --command")
    ∧ (∀ f, file = some f → pyTruthy file = true → (isfile f && isxok f) = false →
        validate_binary file command isfile isxok =
          Except.error (f ++ " is not an executable file"))
    ∧ (∀ f, file = some f → pyTruthy file = true → (isfile f && isxok f) = true →
        validate_binary file command isfile isxok = Except.ok f)
    ∧ (∀ e, setup_argparse a isfile isxok = Except.error e →
        (driverRun a isfile isxok parentEnv res logName).2 = []) := by
  refine ⟨?_, ?_, ?_, ?_⟩
  · intro hf hc
    simp [validate_binary, pyOr, hf, hc]
  · intro f hf htruthy hexec
    subst hf
    simp [validate_binary, pyOr, htruthy, hexec]
  · intro f hf htruthy hexec
    subst hf
    simp [validate_binary, pyOr, htruthy, hexec]
  · intro e he
    simp [driverRun, he]

/-- Claim C5 (witness): the missing-input usage error at concrete input. -/
theorem C5_validate_binary_behaviour_witness :
    validate_binary none none (fun _ => true) (fun _ => true) =
      Except.error "you must provide either --file or --command" :=
  (C5_validate_binary_behaviour none none (fun _ => true) (fun _ => true) c3okArgs []
    (fun _ => true) "log").1 rfl rfl

/-- Claim C6: in the pivoted commands-by-allocators matrix of mean total time,
when the baseline column is present with a defined, non-zero entry in every
row, dividing each row by its baseline-column value makes the baseline column
identically `1`. -/
theorem C6_baseline_column_all_ones (df : List Row) (baseline : String)
    (_hcol : baseline ∈ pivotCols df)
    (hdef : ∀ c ∈ pivotIndex df,
      (pivotCell df c baseline).isSome = true ∧ pivotCell df c baseline ≠ some 0) :
    ∀ c ∈ pivotIndex df, pivotRelativeCell df baseline c baseline = some 1 := by
  intro c hc
  obtain ⟨hs, hnz⟩ := hdef c hc
  unfold pivotRelativeCell
  cases h : pivotCell df c baseline with
  | none => rw [h] at hs; simp at hs
  | some b =>
    rw [h] at hnz
    have hb : b ≠ 0 := by
      intro hb0
      exact hnz (by rw [hb0])
    simp [div_self hb]

/-- Claim C6 (witness): on a concrete dataset the baseline's own relative cell
is `1`. -/
theorem C6_baseline_column_all_ones_witness :
    pivotRelativeCell c2rows "gnu" "A" "gnu" = some 1 := by
  refine C6_baseline_column_all_ones c2rows "gnu" (by decide) ?_ "A" (by decide)
  intro c hc
  have hcA : c = "A" := by
    have : pivotIndex c2rows = ["A"] := by decide
    rw [this] at hc
    simpa using hc
  subst hcA
  have hcell : pivotCell c2rows "A" "gnu" = some 10 := by
    simp [pivotCell, c2rows, mkRow]
  rw [hcell]
  refine ⟨rfl, ?_⟩
  intro h
  simp at h

/-! ## Code-point order lemmas (Python string comparison) -/

theorem charEq_of_toNat_eq {a b : Char} (h : a.toNat = b.toNat) : a = b :=
  Char.ext (UInt32.ext h)

theorem charListLt_irrefl (l : List Char) : charListLt l l = false := by
  induction l with
  | nil => rfl
  | cons a as ih => simp [charListLt, ih]

theorem charListLt_trans :
    ∀ a b c : List Char, charListLt a b = true → charListLt b c = true →
      charListLt a c = true := by
  intro a
  induction a with
  | nil =>
    intro b c hab hbc
    cases b with
    | nil => simp [charListLt] at hab
    | cons y ys =>
      cases c with
      | nil => simp [charListLt] at hbc
      | cons z zs => simp [charListLt]
  | cons x xs ih =>
    intro b c hab hbc
    cases b with
    | nil => simp [charListLt] at hab
    | cons y ys =>
      cases c with
      | nil => simp [charListLt] at hbc
      | cons z zs =>
        simp only [charListLt] at hab hbc ⊢
        by_cases h1 : x.toNat < y.toNat
        · by_cases h2 : y.toNat < z.toNat
          · simp [Nat.lt_trans h1 h2]
          · simp only [h2, if_false] at hbc
            by_cases h3 : z.toNat < y.toNat
            · simp [h3] at hbc
            · have hxz : x.toNat < z.toNat := by omega
              simp [hxz]
        · simp only [h1, if_false] at hab
          by_cases h1' : y.toNat < x.toNat
          · simp [h1'] at hab
          · simp only [h1', if_false] at hab
            by_cases h2 : y.toNat < z.toNat
            · have hxz : x.toNat < z.toNat := by omega
              simp [hxz]
            · simp only [h2, if_false] at hbc
              by_cases h3 : z.toNat < y.toNat
              · simp [h3] at hbc
              · simp only [h3, if_false] at hbc
                have hx : ¬x.toNat < z.toNat := by omega
                have hz : ¬z.toNat < x.toNat := by omega
                simpa [hx, hz] using ih ys zs hab hbc

theorem charListLt_conn :
    ∀ a b : List Char, charListLt a b = false → charListLt b a = false → a = b := by
  intro a
  induction a with
  | nil =>
    intro b hab _
    cases b with
    | nil => rfl
    | cons y ys => simp [charListLt] at hab
  | cons x xs ih =>
    intro b hab hba
    cases b with
    | nil => simp [charListLt] at hba
    | cons y ys =>
      simp only [charListLt] at hab hba
      by_cases h1 : x.toNat < y.toNat
      · simp [h1] at hab
      · by_cases h2 : y.toNat < x.toNat
        · simp [h2] at hba
        · simp only [h1, h2, if_false] at hab hba
          have hxy : x = y := charEq_of_toNat_eq (by omega)
          rw [hxy, ih ys hab hba]

theorem strLt_irrefl (a : String) : strLt a a = false := charListLt_irrefl a.data

theorem strLt_trans {a b c : String} (hab : strLt a b = true) (hbc : strLt b c = true) :
    strLt a c = true := charListLt_trans a.data b.data c.data hab hbc

theorem strLt_conn {a b : String} (hab : strLt a b = false) (hba : strLt b a = false) :
    a = b := by
  have h := charListLt_conn a.data b.data hab hba
  cases a with
  | mk la =>
    cases b with
    | mk lb => exact congrArg String.mk h

theorem strLt_total (a b : String) : a = b ∨ strLt a b = true ∨ strLt b a = true := by
  by_cases h1 : strLt a b = true
  · exact Or.inr (Or.inl h1)
  · by_cases h2 : strLt b a = true
    · exact Or.inr (Or.inr h2)
    · exact Or.inl (strLt_conn (by simpa using h1) (by simpa using h2))

theorem strLt_ne {a b : String} (h : strLt a b = true) : a ≠ b := by
  intro he
  rw [he] at h
  rw [strLt_irrefl] at h
  exact Bool.false_ne_true h

/-! ## Sorted-unique index and stable descending sort lemmas -/

theorem mem_insertUnique (x a : String) :
    ∀ l : List String, a ∈ insertUnique x l ↔ a = x ∨ a ∈ l := by
  intro l
  induction l with
  | nil => simp [insertUnique]
  | cons y ys ih =>
    by_cases he : x = y
    · subst he
      simp [insertUnique]
    · by_cases hlt : strLt x y
      · simp [insertUnique, he, hlt]
      · simp [insertUnique, he, hlt, ih]
        try tauto

theorem pairwise_insertUnique (x : String) :
    ∀ l : List String, l.Pairwise (fun a b => strLt a b = true) →
      (insertUnique x l).Pairwise (fun a b => strLt a b = true) := by
  intro l
  induction l with
  | nil => simp [insertUnique]
  | cons y ys ih =>
    intro h
    by_cases he : x = y
    · simpa [insertUnique, he] using h
    · by_cases hlt : strLt x y
      · rw [List.pairwise_cons] at h
        simp only [insertUnique, he, if_false, hlt, if_true]
        refine List.Pairwise.cons ?_ (List.Pairwise.cons h.1 h.2)
        intro z hz
        rcases List.mem_cons.mp hz with hz | hz
        · rw [hz]; exact hlt
        · exact strLt_trans hlt (h.1 z hz)
      · rw [List.pairwise_cons] at h
        have hyx : strLt y x = true := by
          rcases strLt_total x y with h1 | h1 | h1
          · exact absurd h1 he
          · exact absurd h1 hlt
          · exact h1
        simp only [insertUnique, he, if_false, hlt]
        refine List.Pairwise.cons ?_ (ih h.2)
        intro z hz
        rcases (mem_insertUnique x z ys).mp hz with hz | hz
        · rw [hz]; exact hyx
        · exact h.1 z hz

theorem pairwise_uniqueSorted (l : List String) :
    (uniqueSorted l).Pairwise (fun a b => strLt a b = true) := by
  induction l with
  | nil => exact List.Pairwise.nil
  | cons x xs ih => exact pairwise_insertUnique x _ ih

theorem mem_uniqueSorted (a : String) :
    ∀ l : List String, a ∈ uniqueSorted l ↔ a ∈ l := by
  intro l
  induction l with
  | nil => simp [uniqueSorted]
  | cons x xs ih =>
    show a ∈ insertUnique x (uniqueSorted xs) ↔ _
    rw [mem_insertUnique, ih]
    simp

theorem nodup_uniqueSorted (l : List String) : (uniqueSorted l).Nodup :=
  (pairwise_uniqueSorted l).imp (fun h => strLt_ne h)

theorem mem_insertValDesc (x z : String × ℚ) :
    ∀ l, z ∈ insertValDesc x l ↔ z = x ∨ z ∈ l := by
  intro l
  induction l with
  | nil => simp [insertValDesc]
  | cons y ys ih =>
    by_cases h : y.2 < x.2
    · simp [insertValDesc, h]
    · simp [insertValDesc, h, ih]
      try tauto

theorem perm_insertValDesc (x : String × ℚ) :
    ∀ l, (insertValDesc x l).Perm (x :: l) := by
  intro l
  induction l with
  | nil => simp [insertValDesc]
  | cons y ys ih =>
    by_cases h : y.2 < x.2
    · simp [insertValDesc, h]
    · simp only [insertValDesc, h, if_false]
      exact (ih.cons y).trans (List.Perm.swap x y ys)

theorem pairwise_insertValDesc (x : String × ℚ) :
    ∀ l, l.Pairwise topRel → (∀ y ∈ l, strLt y.1 x.1 = true) →
      (insertValDesc x l).Pairwise topRel := by
  intro l
  induction l with
  | nil => simp [insertValDesc, List.Pairwise.nil]
  | cons y ys ih =>
    intro h hk
    rw [List.pairwise_cons] at h
    by_cases hv : y.2 < x.2
    · simp only [insertValDesc, hv, if_true]
      refine List.Pairwise.cons ?_ (List.Pairwise.cons h.1 h.2)
      intro z hz
      rcases List.mem_cons.mp hz with hz | hz
      · rw [hz]; exact Or.inl hv
      · rcases h.1 z hz with h2 | h2
        · exact Or.inl (h2.trans hv)
        · exact Or.inl (h2.1 ▸ hv)
    · simp only [insertValDesc, hv, if_false]
      refine List.Pairwise.cons ?_ (ih h.2 (fun z hz => hk z (List.mem_cons_of_mem y hz)))
      intro z hz
      rcases (mem_insertValDesc x z ys).mp hz with hz | hz
      · subst hz
        rcases lt_or_eq_of_le (le_of_not_lt hv) with h2 | h2
        · exact Or.inl h2
        · exact Or.inr ⟨h2.symm, hk y (List.mem_cons_self y ys)⟩
      · exact h.1 z hz

theorem sortAux_perm (l : List (String × ℚ)) :
    ∀ acc, (List.foldl (fun a x => insertValDesc x a) acc l).Perm (acc ++ l) := by
  induction l with
  | nil => intro acc; simp
  | cons x l ih =>
    intro acc
    refine ((ih (insertValDesc x acc)).trans ?_)
    refine ((perm_insertValDesc x acc).append_right l).trans ?_
    exact (List.perm_middle).symm

theorem perm_sortValDesc (l : List (String × ℚ)) : (sortValDesc l).Perm l :=
  sortAux_perm l []

theorem sortAux_pairwise (l : List (String × ℚ)) :
    ∀ acc, acc.Pairwise topRel →
      (∀ y ∈ acc, ∀ x ∈ l, strLt y.1 x.1 = true) →
      l.Pairwise (fun a b => strLt a.1 b.1 = true) →
      (List.foldl (fun a x => insertValDesc x a) acc l).Pairwise topRel := by
  induction l with
  | nil => intro acc hacc _ _; exact hacc
  | cons x l ih =>
    intro acc hacc hcross hl
    rw [List.pairwise_cons] at hl
    refine ih (insertValDesc x acc) ?_ ?_ hl.2
    · exact pairwise_insertValDesc x acc hacc
        (fun y hy => hcross y hy x (List.mem_cons_self x l))
    · intro y hy z hz
      rcases (mem_insertValDesc x y acc).mp hy with hy | hy
      · subst hy; exact hl.1 z hz
      · exact hcross y hy z (List.mem_cons_of_mem x hz)

theorem pairwise_sortValDesc (l : List (String × ℚ))
    (h : l.Pairwise (fun a b => strLt a.1 b.1 = true)) :
    (sortValDesc l).Pairwise topRel :=
  sortAux_pairwise l [] List.Pairwise.nil (by simp) h

theorem groupMeanSeries_keys_pairwise (df : List Row) :
    (groupMeanSeries df).Pairwise (fun a b => strLt a.1 b.1 = true) := by
  unfold groupMeanSeries
  rw [List.pairwise_map]
  exact pairwise_uniqueSorted _

theorem groupMeanSeries_map_fst (df : List Row) :
    (groupMeanSeries df).map Prod.fst = pivotIndex df := by
  unfold groupMeanSeries
  rw [List.map_map]
  exact List.map_id _

theorem mem_groupMeanSeries (df : List Row) (p : String × ℚ) :
    p ∈ groupMeanSeries df ↔ p.1 ∈ pivotIndex df ∧ p.2 = meanTotal df p.1 := by
  unfold groupMeanSeries
  rw [List.mem_map]
  constructor
  · rintro ⟨c, hc, rfl⟩
    exact ⟨hc, rfl⟩
  · rintro ⟨hc, hp⟩
    exact ⟨p.1, hc, by rw [← hp]⟩

/-- Claim C7 (amended): `top_commands` selects exactly `min n` (number of
commands) commands, all drawn from the dataset's commands, without
duplicates, and every selected command's mean total time beats every
unselected command's — with ties broken in favour of the command that comes
first in ascending (code-point) name order, i.e. first in the sorted groupby
index, not in encounter order. -/
theorem C7_top_n_selection (df : List Row) (n : Nat) :
    (top_commands df n).length = min n (pivotIndex df).length
    ∧ (∀ c ∈ top_commands df n, c ∈ pivotIndex df)
    ∧ (top_commands df n).Nodup
    ∧ (∀ c ∈ top_commands df n, ∀ d ∈ pivotIndex df, d ∉ top_commands df n →
        meanTotal df d < meanTotal df c ∨
          (meanTotal df d = meanTotal df c ∧ strLt c d = true)) := by
  have hperm : (sortValDesc (groupMeanSeries df)).Perm (groupMeanSeries df) :=
    perm_sortValDesc _
  have hpw : (sortValDesc (groupMeanSeries df)).Pairwise topRel :=
    pairwise_sortValDesc _ (groupMeanSeries_keys_pairwise df)
  have hfstperm : ((sortValDesc (groupMeanSeries df)).map Prod.fst).Perm (pivotIndex df) := by
    rw [← groupMeanSeries_map_fst df]
    exact hperm.map Prod.fst
  refine ⟨?_, ?_, ?_, ?_⟩
  · have hlen : (groupMeanSeries df).length = (pivotIndex df).length := by
      unfold groupMeanSeries
      rw [List.length_map]
    simp [top_commands, List.length_take, hperm.length_eq, hlen]
  · intro c hc
    rw [top_commands, List.mem_map] at hc
    obtain ⟨p, hp, rfl⟩ := hc
    have hps : p ∈ groupMeanSeries df := hperm.subset (List.take_subset n _ hp)
    exact ((mem_groupMeanSeries df p).mp hps).1
  · have hnodup : ((sortValDesc (groupMeanSeries df)).map Prod.fst).Nodup :=
      (hfstperm.nodup_iff).mpr (nodup_uniqueSorted _)
    have hsub : List.Sublist (((sortValDesc (groupMeanSeries df)).take n).map Prod.fst)
        ((sortValDesc (groupMeanSeries df)).map Prod.fst) :=
      (List.take_sublist n _).map Prod.fst
    exact hsub.nodup hnodup
  · intro c hc d hd hdnot
    rw [top_commands, List.mem_map] at hc
    obtain ⟨p, hp, hpc⟩ := hc
    have hps : p ∈ groupMeanSeries df := hperm.subset (List.take_subset n _ hp)
    have hpval : p.2 = meanTotal df p.1 := ((mem_groupMeanSeries df p).mp hps).2
    have hq : (d, meanTotal df d) ∈ sortValDesc (groupMeanSeries df) := by
      rw [hperm.mem_iff, mem_groupMeanSeries]
      exact ⟨hd, rfl⟩
    have hqdrop : (d, meanTotal df d) ∈ (sortValDesc (groupMeanSeries df)).drop n := by
      rcases (List.mem_append.mp (by
          rwa [List.take_append_drop] :
            (d, meanTotal df d) ∈ (sortValDesc (groupMeanSeries df)).take n ++
              (sortValDesc (groupMeanSeries df)).drop n)) with hin | hin
      · exact absurd (by
          rw [top_commands, List.mem_map]
          exact ⟨(d, meanTotal df d), hin, rfl⟩) hdnot
      · exact hin
    have hpw2 : ((sortValDesc (groupMeanSeries df)).take n ++
        (sortValDesc (groupMeanSeries df)).drop n).Pairwise topRel := by
      rw [List.take_append_drop]
      exact hpw
    have hcross := (List.pairwise_append.mp hpw2).2.2
    have hrel := hcross p hp (d, meanTotal df d) hqdrop
    rcases hrel with h2 | h2
    · left
      rw [← hpc, ← hpval]
      exact h2
    · right
      constructor
      · rw [← hpc, ← hpval]
        exact h2.1.symm
      · rw [← hpc]
        exact h2.2

/-- Claim C7 (counterexample): on a dataset where command `"b"` is encountered
before `"a"` and both tie on the highest mean total time, the top-1 selection
returns `"a"` — the groupby index is sorted, so ties resolve by ascending
command name, not by original encounter order as the claim states. -/
theorem C7_tie_not_encounter_order :
    top_commands c7rows 1 = ["a"]
    ∧ top_commands_encounterTies c7rows 1 = ["b"]
    ∧ ¬top_commands c7rows 1 = top_commands_encounterTies c7rows 1 := by
  have hfa : c7rows.filter (fun r => r.command == "a") = [mkRow "a" "gnu" 5] := by decide
  have hfb : c7rows.filter (fun r => r.command == "b") = [mkRow "b" "gnu" 5] := by decide
  have hfc : c7rows.filter (fun r => r.command == "c") = [mkRow "c" "gnu" 3] := by decide
  have ha : meanTotal c7rows "a" = 5 := by
    simp only [meanTotal, hfa]
    norm_num [mkRow]
  have hb : meanTotal c7rows "b" = 5 := by
    simp only [meanTotal, hfb]
    norm_num [mkRow]
  have hc : meanTotal c7rows "c" = 3 := by
    simp only [meanTotal, hfc]
    norm_num [mkRow]
  have h1 : top_commands c7rows 1 = ["a"] := by
    have hidx : pivotIndex c7rows = ["a", "b", "c"] := by decide
    simp only [top_commands, groupMeanSeries, hidx, List.map_cons, List.map_nil, ha, hb, hc]
    norm_num [sortValDesc, insertValDesc]
  have h2 : top_commands_encounterTies c7rows 1 = ["b"] := by
    have hded : dedupFirst (c7rows.map (fun r => r.command)) = ["b", "a", "c"] := by decide
    simp only [top_commands_encounterTies, hded, List.map_cons, List.map_nil, ha, hb, hc]
    norm_num [sortValDesc, insertValDesc]
  refine ⟨h1, h2, ?_⟩
  rw [h1, h2]
  decide

/-! ## Single-character split lemmas -/

theorem splitFirst_of_not_mem {c : Char} {s : List Char} (h : c ∉ s) :
    splitFirst [c] s = none := by
  induction s with
  | nil => rfl
  | cons x xs ih =>
    have hx : (c == x) = false := by
      simp only [beq_eq_false_iff_ne, ne_eq]
      intro he
      exact h (he ▸ List.mem_cons_self x xs)
    have hpre : [c].isPrefixOf (x :: xs) = false := by
      simp [List.isPrefixOf, hx]
    simp only [splitFirst, hpre, Bool.false_eq_true, if_false]
    rw [ih (fun hm => h (List.mem_cons_of_mem x hm))]

theorem splitFirst_around {c : Char} {m s : List Char} (hm : c ∉ m) :
    splitFirst [c] (m ++ c :: s) = some (m, s) := by
  induction m with
  | nil =>
    have hpre : [c].isPrefixOf (c :: s) = true := by simp [List.isPrefixOf]
    simp [splitFirst, hpre]
  | cons x xs ih =>
    have hx : (c == x) = false := by
      simp only [beq_eq_false_iff_ne, ne_eq]
      intro he
      exact hm (he ▸ List.mem_cons_self x xs)
    have hpre : [c].isPrefixOf (x :: (xs ++ c :: s)) = false := by
      simp [List.isPrefixOf, hx]
    simp only [List.cons_append, splitFirst, List.append_eq, hpre, Bool.false_eq_true, if_false]
    rw [ih (fun hmm => hm (List.mem_cons_of_mem x hmm))]

theorem pysplitN_of_not_mem {c : Char} {s : List Char} (h : c ∉ s) :
    ∀ n, pysplitN [c] n s = [s] := by
  intro n
  cases n with
  | zero => rfl
  | succ n => simp [pysplitN, splitFirst_of_not_mem h]

theorem pysplit_of_not_mem {c : Char} {s : List Char} (h : c ∉ s) :
    pysplit [c] s = [s] :=
  pysplitN_of_not_mem h _

theorem pysplit_around {c : Char} {m s : List Char} (hm : c ∉ m) (hs : c ∉ s) :
    pysplit [c] (m ++ c :: s) = [m, s] := by
  unfold pysplit
  simp only [pysplitN, splitFirst_around hm]
  rw [pysplitN_of_not_mem hs]

/-- Claim C8: `parse_time` on the spec's example report returns real time
`65.30` (user `0.02`, system `0.01`); and in general a field of the form `M:S`
(with numeric `M`, `S`) is parsed as `60 * M + S` while a colon-free plain
decimal field is parsed as that decimal number of seconds. -/
theorem C8_parse_time_report :
    parse_time c8report = some (653/10, 1/50, 1/100)
    ∧ (∀ m s : List Char, ∀ M : ℤ, ∀ S : ℚ, ':' ∉ m → ':' ∉ s →
        pyInt m = some M → pyFloat s = some S →
        parseField (m ++ ':' :: s) = some ((M : ℚ) * 60 + S))
    ∧ (∀ t : List Char, ∀ S : ℚ, ':' ∉ t → pyFloat t = some S →
        parseField t = some S) := by
  refine ⟨?_, ?_, ?_⟩
  · have h0 : parse_time c8report =
        some (((1 : ℤ) : ℚ) * 60 + decOfParts "05".data "30".data,
          decOfParts "0".data "02".data, decOfParts "0".data "01".data) := rfl
    rw [h0]
    have h05 : natOfDigits "05".data = 5 := by decide
    have h30 : natOfDigits "30".data = 30 := by decide
    have h00 : natOfDigits "0".data = 0 := by decide
    have h02 : natOfDigits "02".data = 2 := by decide
    have h01 : natOfDigits "01".data = 1 := by decide
    simp only [decOfParts, h05, h30, h00, h02, h01]
    norm_num
  · intro m s M S hm hs hM hS
    have hmem : (m ++ ':' :: s).contains ':' = true := by
      simp [List.contains]
    simp only [parseField, hmem, if_true, parse_lengthy_time, pysplit_around hm hs, hM, hS]
  · intro t S ht hS
    have hmem : t.contains ':' = false := by
      simpa [List.contains] using ht
    simp only [parseField, hmem, Bool.false_eq_true, if_false, hS]

/-- Claim C8 (witness): the `M:S` law at the concrete field `1:05.30`
(`pyInt "1" = 1`, `pyFloat "05.30" = 53/10`), giving `60 + 53/10`. -/
theorem C8_parse_time_report_witness :
    parseField ("1".data ++ ':' :: "05.30".data) = some (((1 : ℤ) : ℚ) * 60 + 53/10) := by
  have hf : pyFloat "05.30".data = some ((53 : ℚ)/10) := by
    have h1 : pyFloat "05.30".data = some (decOfParts "05".data "30".data) := rfl
    rw [h1]
    have h05 : natOfDigits "05".data = 5 := by decide
    have h30 : natOfDigits "30".data = 30 := by decide
    simp only [decOfParts, h05, h30]
    norm_num
  exact C8_parse_time_report.2.1 "1".data "05.30".data 1 (53/10) (by decide) (by decide)
    (by decide) hf

/-- Claim C9 (counterexample): trace-log tokenization splits on single spaces,
not on whitespace runs: on the line `1234  open(x) = 3` (two spaces) the
second whitespace-separated field is `open(x)` and starts alphanumeric, yet
the code counts nothing, because the second single-space field is empty. -/
theorem C9_double_space_line_not_counted :
    straceTokenByWsField c9lineGap = some "open".data
    ∧ straceToken c9lineGap = none
    ∧ straceCount [c9lineGap] "open".data = 0 := by decide

/-- Claim C9 (amended): on the two example lines the mapping counts `open`
exactly once and has no entry for the signal line's token `---`; and in
general a line contributes a token exactly when its second
single-space-separated field exists and, truncated at the first parenthesis,
is non-empty with an alphanumeric first character. -/
theorem C9_strace_token_counting :
    (straceCount [c9lineOpen, c9lineSig] "open".data = 1
      ∧ straceCount [c9lineOpen, c9lineSig] "---".data = 0
      ∧ syscall_list [c9lineOpen, c9lineSig] = ["open".data])
    ∧ (∀ line t, straceToken line = some t ↔
        ∃ f, (pysplit [' '] line)[1]? = some f ∧ t = headD0 (pysplit ['('] f) ∧
          ∃ c cs, t = c :: cs ∧ c.isAlphanum = true) := by
  refine ⟨by decide, ?_⟩
  intro line t
  constructor
  · intro h
    unfold straceToken at h
    split at h
    · exact absurd h (by simp)
    · rename_i f h1
      split at h
      · exact absurd h (by simp)
      · rename_i c cs h2
        split at h
        · rename_i h3
          have ht : t = c :: cs := (Option.some.inj h).symm
          refine ⟨f, h1, ?_, c, cs, ht, h3⟩
          rw [h2]
          exact ht
        · exact absurd h (by simp)
  · rintro ⟨f, h1, ht, c, cs, hcs, halnum⟩
    subst ht
    simp only [straceToken, h1]
    rw [hcs]
    simp [halnum]

/-- Claim C9 (witness): the characterization instantiated at the first example
line recovers the counted token `open`. -/
theorem C9_strace_token_counting_witness :
    ∃ f, (pysplit [' '] c9lineOpen)[1]? = some f
      ∧ "open".data = headD0 (pysplit ['('] f)
      ∧ ∃ c cs, "open".data = c :: cs ∧ c.isAlphanum = true :=
  (C9_strace_token_counting.2 c9lineOpen "open".data).mp (by decide)

/-- Claim C10: a trace line with fewer than two single-space-separated fields,
or whose second field is empty (consecutive spaces), is skipped through the
`IndexError` handler and contributes nothing to the syscall counts. -/
theorem C10_short_or_empty_second_field_skipped (line : List Char)
    (lines : List (List Char))
    (h : (pysplit [' '] line).length < 2 ∨ (pysplit [' '] line)[1]? = some []) :
    straceToken line = none ∧ syscall_list (line :: lines) = syscall_list lines := by
  have htok : straceToken line = none := by
    rcases h with h | h
    · have h0 : (pysplit [' '] line)[1]? = none := by
        rw [List.getElem?_eq_none]
        omega
      simp [straceToken, h0]
    · simp only [straceToken, h]
      rfl
  exact ⟨htok, by simp [syscall_list, List.filterMap_cons, htok]⟩

/-- Claim C10 (witness): the double-space line is skipped and adds nothing. -/
theorem C10_short_or_empty_second_field_skipped_witness :
    straceToken c9lineGap = none ∧ syscall_list [c9lineGap] = syscall_list [] :=
  C10_short_or_empty_second_field_skipped c9lineGap [] (Or.inr (by decide))

/-- Claim C7 (witness): the selection properties at a concrete dataset and
`n = 1`. -/
theorem C7_top_n_selection_witness :
    (top_commands c7rows 1).length = min 1 (pivotIndex c7rows).length
    ∧ (∀ c ∈ top_commands c7rows 1, c ∈ pivotIndex c7rows)
    ∧ (top_commands c7rows 1).Nodup :=
  ⟨(C7_top_n_selection c7rows 1).1, (C7_top_n_selection c7rows 1).2.1,
    (C7_top_n_selection c7rows 1).2.2.1⟩
